import Mathlib

/-!
Verification of the Simbase Home Assistant integration core
(`custom_components/simbase/api.py` and
`custom_components/simbase/coordinator.py`).

The Python code manipulates decoded JSON values (dicts, lists, strings,
numbers, booleans, None).  We embed those values as the inductive `JVal`
below; Python dictionaries are association lists whose `set` operation
replaces an existing key in place and appends a new key at the end, which
matches CPython's insertion-ordered dict semantics.  Python truthiness (`if x:`, `a or b`)
is modelled by `truthy`.  Fallible Python code paths (exceptions) are
modelled with `Except`.

JSON numbers are modelled as integers: every number appearing in the
code, its API examples and the properties below is an integer, and the
kernel can evaluate integer arithmetic on concrete inputs.  The one
fractional artefact — the `round(x, 2)` applied to the megabyte total —
is represented by its value in hundredths, as an integer.
-/

set_option maxHeartbeats 1000000

/-- A decoded JSON value, as manipulated by the Python client code. -/
inductive JVal where
  | null
  | bool (b : Bool)
  | num (n : Int)
  | str (s : String)
  | arr (elems : List JVal)
  | obj (fields : List (String × JVal))
deriving Inhabited

/-! Decidable equality for `JVal`, by mutual recursion through the nested
lists (the `deriving` handler does not cover nested inductives). -/

mutual
def JVal.decEq : (a b : JVal) → Decidable (a = b)
  | .null, .null => .isTrue rfl
  | .bool a, .bool b =>
      if h : a = b then .isTrue (by rw [h]) else .isFalse (fun he => h (JVal.bool.inj he))
  | .num a, .num b =>
      if h : a = b then .isTrue (by rw [h]) else .isFalse (fun he => h (JVal.num.inj he))
  | .str a, .str b =>
      if h : a = b then .isTrue (by rw [h]) else .isFalse (fun he => h (JVal.str.inj he))
  | .arr xs, .arr ys =>
      match JVal.decEqList xs ys with
      | .isTrue h => .isTrue (by rw [h])
      | .isFalse h => .isFalse (fun he => h (JVal.arr.inj he))
  | .obj fs, .obj gs =>
      match JVal.decEqObj fs gs with
      | .isTrue h => .isTrue (by rw [h])
      | .isFalse h => .isFalse (fun he => h (JVal.obj.inj he))
  | .null, .bool _ => .isFalse (fun h => JVal.noConfusion h)
  | .null, .num _ => .isFalse (fun h => JVal.noConfusion h)
  | .null, .str _ => .isFalse (fun h => JVal.noConfusion h)
  | .null, .arr _ => .isFalse (fun h => JVal.noConfusion h)
  | .null, .obj _ => .isFalse (fun h => JVal.noConfusion h)
  | .bool _, .null => .isFalse (fun h => JVal.noConfusion h)
  | .bool _, .num _ => .isFalse (fun h => JVal.noConfusion h)
  | .bool _, .str _ => .isFalse (fun h => JVal.noConfusion h)
  | .bool _, .arr _ => .isFalse (fun h => JVal.noConfusion h)
  | .bool _, .obj _ => .isFalse (fun h => JVal.noConfusion h)
  | .num _, .null => .isFalse (fun h => JVal.noConfusion h)
  | .num _, .bool _ => .isFalse (fun h => JVal.noConfusion h)
  | .num _, .str _ => .isFalse (fun h => JVal.noConfusion h)
  | .num _, .arr _ => .isFalse (fun h => JVal.noConfusion h)
  | .num _, .obj _ => .isFalse (fun h => JVal.noConfusion h)
  | .str _, .null => .isFalse (fun h => JVal.noConfusion h)
  | .str _, .bool _ => .isFalse (fun h => JVal.noConfusion h)
  | .str _, .num _ => .isFalse (fun h => JVal.noConfusion h)
  | .str _, .arr _ => .isFalse (fun h => JVal.noConfusion h)
  | .str _, .obj _ => .isFalse (fun h => JVal.noConfusion h)
  | .arr _, .null => .isFalse (fun h => JVal.noConfusion h)
  | .arr _, .bool _ => .isFalse (fun h => JVal.noConfusion h)
  | .arr _, .num _ => .isFalse (fun h => JVal.noConfusion h)
  | .arr _, .str _ => .isFalse (fun h => JVal.noConfusion h)
  | .arr _, .obj _ => .isFalse (fun h => JVal.noConfusion h)
  | .obj _, .null => .isFalse (fun h => JVal.noConfusion h)
  | .obj _, .bool _ => .isFalse (fun h => JVal.noConfusion h)
  | .obj _, .num _ => .isFalse (fun h => JVal.noConfusion h)
  | .obj _, .str _ => .isFalse (fun h => JVal.noConfusion h)
  | .obj _, .arr _ => .isFalse (fun h => JVal.noConfusion h)
def JVal.decEqList : (xs ys : List JVal) → Decidable (xs = ys)
  | [], [] => .isTrue rfl
  | [], _ :: _ => .isFalse (fun h => List.noConfusion h)
  | _ :: _, [] => .isFalse (fun h => List.noConfusion h)
  | x :: xs, y :: ys =>
      match JVal.decEq x y, JVal.decEqList xs ys with
      | .isTrue h1, .isTrue h2 => .isTrue (by rw [h1, h2])
      | .isFalse h1, _ => .isFalse (fun h => h1 (List.cons.inj h).1)
      | _, .isFalse h2 => .isFalse (fun h => h2 (List.cons.inj h).2)
def JVal.decEqObj : (xs ys : List (String × JVal)) → Decidable (xs = ys)
  | [], [] => .isTrue rfl
  | [], _ :: _ => .isFalse (fun h => List.noConfusion h)
  | _ :: _, [] => .isFalse (fun h => List.noConfusion h)
  | (k, v) :: xs, (l, w) :: ys =>
      if hk : k = l then
        match JVal.decEq v w, JVal.decEqObj xs ys with
        | .isTrue h1, .isTrue h2 => .isTrue (by rw [hk, h1, h2])
        | .isFalse h1, _ =>
            .isFalse (fun h => h1 (congrArg Prod.snd (List.cons.inj h).1))
        | _, .isFalse h2 => .isFalse (fun h => h2 (List.cons.inj h).2)
      else .isFalse (fun h => hk (congrArg Prod.fst (List.cons.inj h).1))
end

instance : DecidableEq JVal := JVal.decEq

/-- A Python dict decoded from JSON: string keys, insertion-ordered. -/
abbrev JObj := List (String × JVal)

/-- Python truthiness of a decoded JSON value: `None`, `False`, `0`, `""`,
`[]` and `` {} `` are falsy, everything else truthy. -/
def truthy : JVal → Bool
  | .null => false
  | .bool b => b
  | .num n => n != 0
  | .str s => s != ""
  | .arr xs => !xs.isEmpty
  | .obj fs => !fs.isEmpty

/-- Python `str.lower()`.  The statuses in play are ASCII, where this
agrees with Python; it maps over the character list directly (Lean's
`String.map` recursion is opaque to the kernel, this one is not). -/
def pyLower (s : String) : String := String.mk (s.data.map Char.toLower)

/-- Decidable equality on `Except`, so concrete outcomes can be settled
by `decide`. -/
instance {ε α : Type} [DecidableEq ε] [DecidableEq α] : DecidableEq (Except ε α) :=
  fun a b =>
    match a, b with
    | .ok x, .ok y =>
        if h : x = y then .isTrue (by rw [h]) else .isFalse (fun he => h (Except.ok.inj he))
    | .error x, .error y =>
        if h : x = y then .isTrue (by rw [h]) else .isFalse (fun he => h (Except.error.inj he))
    | .ok _, .error _ => .isFalse (fun h => Except.noConfusion h)
    | .error _, .ok _ => .isFalse (fun h => Except.noConfusion h)

/-- Python `d.get(k)` on a string-keyed dict: `some v` when present,
`none` (Python `None`) when absent.  First binding wins, as dict keys
are unique. -/
def jget (o : JObj) (k : String) : Option JVal :=
  (o.find? (fun p => p.1 = k)).map (fun p => p.2)

/-- Python `d[k] = v` on a string-keyed dict: replace the value in place
when the key exists, append the binding otherwise. -/
def jset (o : JObj) (k : String) (v : JVal) : JObj :=
  match o with
  | [] => [(k, v)]
  | (k', v') :: rest =>
      if k' = k then (k', v) :: rest else (k', v') :: jset rest k v

/-- The Python idiom `d.get(k1) or d.get(k2) or ... or default`: the value
of the first key in `keys` that is present with a truthy value, `none`
when no key qualifies (the caller then supplies the chain's default). -/
def firstTruthyGet (o : JObj) (keys : List String) : Option JVal :=
  match keys with
  | [] => none
  | k :: ks =>
      match jget o k with
      | some v => if truthy v then some v else firstTruthyGet o ks
      | none => firstTruthyGet o ks

/-- Typed errors raised by `SimbaseApiClient._request`
(`SimbaseAuthError` and `SimbaseRateLimitError` are subclasses of
`SimbaseApiError`; connection errors are wrapped into the base class). -/
inductive SimbaseError where
  | authError
  | rateLimitError
  | apiError (msg : String)
deriving DecidableEq, Repr

/-- Outcome of the underlying HTTP exchange: a status code with a decoded
JSON body, or a network-level failure. -/
inductive HttpOutcome where
  | status (code : Nat) (body : JVal)
  | connectionError
deriving DecidableEq

/-- `SimbaseApiClient._request` error classification: 401 raises
`SimbaseAuthError`, 429 raises `SimbaseRateLimitError`, any other
non-2xx status (`raise_for_status`, i.e. code ≥ 400) and any
`ClientError` raise plain `SimbaseApiError`. -/
def requestResult : HttpOutcome → Except SimbaseError JVal
  | .status code body =>
      if code = 401 then .error .authError
      else if code = 429 then .error .rateLimitError
      else if 400 ≤ code then .error (.apiError "API request failed")
      else .ok body
  | .connectionError => .error (.apiError "Connection error")

/-- `SimbaseApiClient.validate_api_key`, applied to the outcome of its
probe request (`get_simcards(limit=1)`): `False` on `SimbaseAuthError`,
`True` on success and on every other `SimbaseApiError`. -/
def validate_api_key (probe : Except SimbaseError JVal) : Bool :=
  match probe with
  | .ok _ => true
  | .error .authError => false
  | .error .rateLimitError => true
  | .error (.apiError _) => true

/-! ## Paginated fetchers

`get_all_simcards` and `get_all_usage` loop, requesting one page per
iteration.  We embed them over the list of successive page responses:
the k-th `get_simcards`/`get_usage` call returns the k-th list element.
Exhausting the list models a transport failure on the next request,
which in Python raises out of the loop and discards the partial result,
hence `.error`.  An `AttributeError`/`TypeError` raised by the loop body
is likewise modelled as `.error`. -/

/-- The item-container alias chain of `get_all_simcards`
(`response.get("data") or response.get("simcards") or
response.get("items") or response.get("results") or []`). -/
def containerAliases : List String := ["data", "simcards", "items", "results"]

/-- The has-more alias chain of `get_all_simcards`. -/
def hasMoreAliases : List String := ["has_more", "hasMore"]

/-- The cursor alias chain of `get_all_simcards`. -/
def cursorAliases : List String := ["cursor", "next_cursor", "nextCursor"]

/-- Items contributed by one object page in `get_all_simcards`: the
selected container extended if it is a list, appended as a single item
if it is a dict, ignored otherwise. -/
def pageItems (o : JObj) : List JVal :=
  match (firstTruthyGet o containerAliases).getD (.arr []) with
  | .arr xs => xs
  | .obj fs => [.obj fs]
  | _ => []

/-- The has-more continuation test of `get_all_simcards`:
`response.get("has_more", False) or response.get("hasMore", False)`
followed by `if not has_more: break` — continue iff some alias holds a
truthy value. -/
def hasMoreB (o : JObj) : Bool :=
  (firstTruthyGet o hasMoreAliases).isSome

/-- The cursor continuation test of `get_all_simcards`:
`cursor = response.get("cursor") or response.get("next_cursor") or
response.get("nextCursor")` followed by `if not cursor: break` —
continue iff some alias holds a truthy value. -/
def cursorB (o : JObj) : Bool :=
  (firstTruthyGet o cursorAliases).isSome

/-- `SimbaseApiClient.get_all_simcards` over the successive page
responses.  A raw array page is taken whole and ends the loop; an object
page contributes `pageItems` and continues only when both the has-more
and the cursor test pass; any other response type logs a warning and
ends the loop. -/
def get_all_simcards : List JVal → Except String (List JVal)
  | [] => .error "transport error"
  | r :: rest =>
      match r with
      | .arr xs => .ok xs
      | .obj o =>
          if hasMoreB o && cursorB o then
            (get_all_simcards rest).map (fun tl => pageItems o ++ tl)
          else .ok (pageItems o)
      | _ => .ok []

/-- Python iteration of a value, as consumed by `list.extend`: lists
yield their elements, strings their characters, dicts their keys; other
values raise `TypeError`. -/
def pyIter : JVal → Except String (List JVal)
  | .arr xs => .ok xs
  | .str s => .ok (s.toList.map (fun c => .str (String.mk [c])))
  | .obj fs => .ok (fs.map (fun p => .str p.1))
  | _ => .error "TypeError"

/-- `SimbaseApiClient.get_all_usage` over the successive page responses.
Unlike `get_all_simcards` it handles only dict pages
(`response.get("data", [])` raises `AttributeError` on anything else)
and knows only the primary `data`/`has_more`/`cursor` keys, with no
alias fallbacks. -/
def get_all_usage : List JVal → Except String (List JVal)
  | [] => .error "transport error"
  | r :: rest =>
      match r with
      | .obj o => do
          let items ← pyIter ((jget o "data").getD (.arr []))
          if truthy ((jget o "has_more").getD (.bool false)) then
            if truthy ((jget o "cursor").getD .null) then
              let tl ← get_all_usage rest
              .ok (items ++ tl)
            else .ok items
          else .ok items
      | _ => .error "AttributeError"

/-! ## Coordinator (`SimbaseDataUpdateCoordinator._async_update_data`)

The refresh cycle fetches the device list, then usage, account and
balance, and merges everything into one published snapshot.  We embed it
as a pure function of the coordinator's stored state and of the four
fetch outcomes.  Python-level exceptions other than `SimbaseApiError`
(`AttributeError`/`TypeError` on malformed records) are modelled as
`.pyError`; on those paths the partially-mutated Python instance
variables are not modelled, since no claim concerns them. -/

/-- Dict keyed by arbitrary JSON values (the ICCID values used as keys
in `self._simcards` and `self._usage`): Python `d.get(k)` / `k in d`. -/
def dget (d : List (JVal × JObj)) (k : JVal) : Option JObj :=
  (d.find? (fun p => decide (p.1 = k))).map (fun p => p.2)

/-- Python `d[k] = v` on a `JVal`-keyed dict: replace in place or append. -/
def dset (d : List (JVal × JObj)) (k : JVal) (v : JObj) : List (JVal × JObj) :=
  match d with
  | [] => [(k, v)]
  | (k', v') :: rest =>
      if k' = k then (k', v) :: rest else (k', v') :: dset rest k v

/-- The identifier alias chain used for both SIM-card and usage records:
`r.get("iccid") or r.get("ICCID") or r.get("id")`, then `if iccid:`. -/
def iccidAliases : List String := ["iccid", "ICCID", "id"]

/-- The dict-building loops of `_async_update_data` (lines 53-61 for
SIM cards, 68-72 for usage records): key each record by its first truthy
identifier alias, drop records without one, raise `AttributeError` on a
non-dict record (`r.get` on a non-dict). -/
def buildKeyedDict (acc : List (JVal × JObj)) :
    List JVal → Except String (List (JVal × JObj))
  | [] => .ok acc
  | r :: rest =>
      match r with
      | .obj fs =>
          match firstTruthyGet fs iccidAliases with
          | some k => buildKeyedDict (dset acc k fs) rest
          | none => buildKeyedDict acc rest
      | _ => .error "AttributeError"

/-- The usage-merge loop (lines 78-80): for each device, attach the
usage record stored under its own key, if any, as the `"usage"` field. -/
def mergeUsage (sims : List (JVal × JObj)) (usage : List (JVal × JObj)) :
    List (JVal × JObj) :=
  sims.map (fun p =>
    match dget usage p.1 with
    | some u => (p.1, jset p.2 "usage" (.obj u))
    | none => p)

/-- The network-operator alias chain (lines 86-95). -/
def operatorAliases : List String :=
  ["operator", "network", "carrier", "operator_name", "network_name",
   "current_operator", "last_operator", "connected_network"]

/-- The network-metadata loop body (lines 84-104): derive
`network_operator` from the first truthy operator alias, and `mcc`/`mnc`
from their alias pairs; leave the record unchanged when all aliases are
falsy or absent. -/
def addNetworkInfo (sim : JObj) : JObj :=
  let s1 :=
    match firstTruthyGet sim operatorAliases with
    | some op => jset sim "network_operator" op
    | none => sim
  let mcc := firstTruthyGet s1 ["mcc", "last_mcc"]
  let mnc := firstTruthyGet s1 ["mnc", "last_mnc"]
  let s2 :=
    match mcc with
    | some v => jset s1 "mcc" v
    | none => s1
  match mnc with
  | some v => jset s2 "mnc" v
  | none => s2

/-- Python `acc += v` on a numeric accumulator: numbers add, booleans
count as 0/1, anything else raises `TypeError`. -/
def pyAddNum (acc : Int) (v : JVal) : Except String Int :=
  match v with
  | .num n => .ok (acc + n)
  | .bool b => .ok (acc + (if b then 1 else 0))
  | _ => .error "TypeError"

/-- Python `float(v)` as used on cost values, returning `none` when the
call would raise `ValueError`/`TypeError` (the code catches both and
skips the cost).  Python would additionally parse numeric strings; that
parse is not modelled, so string costs are skipped — no claim depends on
a string-valued cost. -/
def pyFloat? (v : JVal) : Option Int :=
  match v with
  | .num n => some n
  | .bool b => some (if b then 1 else 0)
  | _ => none

/-- The status extraction shared by the totals loop (line 150) and the
bulk operations (api.py lines 306 and 322):
`(r.get("state") or r.get("status") or "").lower()` — `AttributeError`
when the selected value is not a string. -/
def pyLowerState (sim : JObj) : Except String String :=
  match (firstTruthyGet sim ["state", "status"]).getD (.str "") with
  | .str s => .ok (pyLower s)
  | _ => .error "AttributeError"

/-- The active/inactive classification (lines 150-154): normalized state
is in the active set iff it equals `"enabled"` or `"active"`. -/
def classifyActive (sim : JObj) : Except String Bool :=
  (pyLowerState sim).map (fun s => s = "enabled" || s = "active")

/-- Running accumulators of the totals loop (lines 122-128). -/
structure RawTotals where
  data : Int
  cost : Int
  active : Nat
  inactive : Nat
  smsSent : Int
  smsReceived : Int
deriving DecidableEq

/-- The zero-initialised accumulators (lines 123-128). -/
def initRawTotals : RawTotals :=
  { data := 0, cost := 0, active := 0, inactive := 0, smsSent := 0, smsReceived := 0 }

/-- The `x or 0` guard applied to each metered value before summation
(`current_month.get("data", 0) or 0`): a falsy value becomes `0`. -/
def truthyOr0 (v : JVal) : JVal := if truthy v then v else .num 0

/-- The data/SMS section of one totals-loop iteration (lines 131-139):
when `current_month_usage` is a dict, add its (guarded) `data`,
`sms_mo` and `sms_mt` values to the running sums, in that order; a
non-summable value raises `TypeError`. -/
def moneyStep (acc : RawTotals) (sim : JObj) : Except String RawTotals :=
  match (jget sim "current_month_usage").getD (.obj []) with
  | .obj cm =>
      match pyAddNum acc.data (truthyOr0 ((jget cm "data").getD (.num 0))) with
      | .error e => .error e
      | .ok d =>
          match pyAddNum acc.smsSent (truthyOr0 ((jget cm "sms_mo").getD (.num 0))) with
          | .error e => .error e
          | .ok s =>
              match pyAddNum acc.smsReceived (truthyOr0 ((jget cm "sms_mt").getD (.num 0))) with
              | .error e => .error e
              | .ok r => .ok { acc with data := d, smsSent := s, smsReceived := r }
  | _ => .ok acc

/-- The cost section of one totals-loop iteration (lines 141-148): when
`current_month_costs` is a dict with a truthy `total`, add its parsed
value, skipping values `float` would reject. -/
def costStep (acc : RawTotals) (sim : JObj) : RawTotals :=
  match (jget sim "current_month_costs").getD (.obj []) with
  | .obj cc =>
      match jget cc "total" with
      | some c =>
          if truthy c then
            match pyFloat? c with
            | some q => { acc with cost := acc.cost + q }
            | none => acc
          else acc
      | none => acc
  | _ => acc

/-- One iteration of the totals loop (lines 129-154) over a single
device record: the data/SMS section, then the cost section, then
exactly one of the two status counters incremented. -/
def totalsStep (acc : RawTotals) (sim : JObj) : Except String RawTotals :=
  match moneyStep acc sim with
  | .error e => .error e
  | .ok a1 =>
      match classifyActive sim with
      | .error e => .error e
      | .ok act =>
          let a2 := costStep a1 sim
          .ok (if act then { a2 with active := a2.active + 1 }
               else { a2 with inactive := a2.inactive + 1 })

/-- The totals loop folded over all stored device records. -/
def totalsFold (acc : RawTotals) : List JObj → Except String RawTotals
  | [] => .ok acc
  | s :: rest =>
      match totalsStep acc s with
      | .error e => .error e
      | .ok a => totalsFold a rest

/-- Round-half-up division, used to express `round(n / d, 2)` in
hundredths: `roundHalfUp (100 * n) d` is `round(n / d, 2) * 100` up to
the tie-breaking (Python uses banker's rounding on floats; no claim
depends on a tie). -/
def roundHalfUp (n d : Int) : Int := (2 * n + d) / (2 * d)

/-- The `"totals"` section of the published snapshot (lines 162-171). -/
structure Totals where
  data_usage_bytes : Int
  data_usage_mb_x100 : Int
  total_cost : Int
  active_sims : Nat
  inactive_sims : Nat
  sms_sent : Int
  sms_received : Int
  sms_total : Int
deriving DecidableEq

/-- Assembling the `"totals"` dict from the loop accumulators: the
megabyte total `round(bytes / (1024 * 1024), 2) if bytes else 0` is kept
in hundredths of a MB, and `round(total_cost, 2)` is the identity on the
integer-modelled costs. -/
def mkTotals (r : RawTotals) : Totals :=
  { data_usage_bytes := r.data
    data_usage_mb_x100 := if truthy (.num r.data) then roundHalfUp (100 * r.data) (1024 * 1024) else 0
    total_cost := r.cost
    active_sims := r.active
    inactive_sims := r.inactive
    sms_sent := r.smsSent
    sms_received := r.smsReceived
    sms_total := r.smsSent + r.smsReceived }

/-- The coordinator's stored instance variables `_simcards`, `_usage`,
`_account`, `_balance` (initialised empty in `__init__`). -/
structure CoordState where
  simcards : List (JVal × JObj)
  usage : List (JVal × JObj)
  account : JObj
  balance : JObj
deriving DecidableEq

/-- The coordinator state as of `__init__`: everything empty. -/
def initCoordState : CoordState :=
  { simcards := [], usage := [], account := [], balance := [] }

/-- The dict returned by one successful `_async_update_data` call
(lines 156-172). -/
structure Snapshot where
  simcards : List (JVal × JObj)
  usage : List (JVal × JObj)
  count : Nat
  account : JObj
  balance : JObj
  totals : Totals
deriving DecidableEq

/-- Errors escaping `_async_update_data`: `UpdateFailed` raised on a
device-list `SimbaseApiError` (line 176), or an unmodelled Python
exception from a malformed record. -/
inductive UpdateErr where
  | updateFailed
  | pyError (msg : String)
deriving DecidableEq

/-- The try/except around the usage fetch (lines 66-75): on success the
`_usage` dict is rebuilt from the fetched records; on a `SimbaseApiError`
the handler only logs, so `_usage` keeps its previous value. -/
def usageResult (st : CoordState) (usageR : Except SimbaseError (List JVal)) :
    Except String (List (JVal × JObj)) :=
  match usageR with
  | .ok ulist => buildKeyedDict [] ulist
  | .error _ => .ok st.usage

/-- The try/except around the account and balance fetches (lines
106-120): the fetched dict on success, `{}` on a `SimbaseApiError`. -/
def sectionOf (r : Except SimbaseError JObj) : JObj :=
  match r with
  | .ok a => a
  | .error _ => []

/-- The device-record pipeline after the dicts are built: merge usage
into each device (lines 78-80), then derive network metadata (lines
84-104). -/
def processSims (sims0 usageD : List (JVal × JObj)) : List (JVal × JObj) :=
  (mergeUsage sims0 usageD).map (fun p => (p.1, addNetworkInfo p.2))

/-- `SimbaseDataUpdateCoordinator._async_update_data`, as a function of
the stored state and the outcomes of the four fetches.  A device-list
error reaches the outer handler before any instance variable was
assigned and raises `UpdateFailed`, leaving the stored state untouched
(the function yields a new state only on success).  On device-list
success: the usage section comes from `usageResult`, the account and
balance sections from `sectionOf`, the device records from
`processSims`, the totals from the totals loop, and the new state and
the returned snapshot are produced together (lines 156-172). -/
def async_update_data (st : CoordState)
    (devR usageR : Except SimbaseError (List JVal))
    (accountR balanceR : Except SimbaseError JObj) :
    Except UpdateErr (CoordState × Snapshot) :=
  match devR with
  | .error _ => .error .updateFailed
  | .ok simList =>
      match buildKeyedDict [] simList with
      | .error e => .error (.pyError e)
      | .ok sims0 =>
          match usageResult st usageR with
          | .error e => .error (.pyError e)
          | .ok usageD =>
              let sims2 := processSims sims0 usageD
              match totalsFold initRawTotals (sims2.map (fun p => p.2)) with
              | .error e => .error (.pyError e)
              | .ok raw =>
                  .ok ({ simcards := sims2, usage := usageD,
                         account := sectionOf accountR, balance := sectionOf balanceR },
                       { simcards := sims2, usage := usageD,
                         count := sims2.length, account := sectionOf accountR,
                         balance := sectionOf balanceR, totals := mkTotals raw })

/-! ## Bulk operations (`activate_all_simcards` / `deactivate_all_simcards`) -/

/-- `str(err)` for the three error classes, as stored in a bulk result
entry (each class is raised with a fixed message). -/
def errStr : SimbaseError → String
  | .authError => "Invalid API key"
  | .rateLimitError => "API rate limit exceeded"
  | .apiError m => m

/-- One bulk result entry (api.py lines 310 and 312): the success dict
on an `.ok` outcome, the captured-error dict on a `SimbaseApiError`. -/
def bulkOutcome (iccid : JVal) (r : Except SimbaseError JVal) : JObj :=
  match r with
  | .ok res => [("iccid", iccid), ("success", .bool true), ("result", res)]
  | .error e => [("iccid", iccid), ("success", .bool false), ("error", .str (errStr e))]

/-- The shared loop of the two bulk operations, parameterized by the
target state set and by the per-device outcome of the mutating call
(`oracle`): for each fetched record, compute the normalized state, and
when the record has a truthy `iccid` and its state is in the target set,
perform the call and append the outcome — an error outcome is captured,
never raised.  A non-dict record raises `AttributeError` (`.get` on a
non-dict), and a non-string state raises at `.lower()`. -/
def bulkToggle (targets : List String) (oracle : JVal → Except SimbaseError JVal) :
    List JVal → Except String (List JObj)
  | [] => .ok []
  | sim :: rest =>
      match sim with
      | .obj fs => do
          let st ← pyLowerState fs
          let here :=
            match jget fs "iccid" with
            | some v =>
                if truthy v && targets.contains st then [bulkOutcome v (oracle v)] else []
            | none => []
          let tl ← bulkToggle targets oracle rest
          .ok (here ++ tl)
      | _ => .error "AttributeError"

/-- `SimbaseApiClient.activate_all_simcards`, applied to the fetched
device list: attempts activation for devices whose state is
`"disabled"` or `"inactive"`. -/
def activate_all_simcards (fetched : List JVal)
    (oracle : JVal → Except SimbaseError JVal) : Except String (List JObj) :=
  bulkToggle ["disabled", "inactive"] oracle fetched

/-- `SimbaseApiClient.deactivate_all_simcards`, applied to the fetched
device list: attempts deactivation for devices whose state is
`"enabled"` or `"active"`. -/
def deactivate_all_simcards (fetched : List JVal)
    (oracle : JVal → Except SimbaseError JVal) : Except String (List JObj) :=
  bulkToggle ["enabled", "active"] oracle fetched

/-! ## Consistent-alias page sequences

For reasoning about pagination over "one single consistent alias set",
a page is its item list, its has-more flag and its optional cursor; it
is rendered as a JSON object under a chosen alias triple. -/

/-- One page of a paginated list response, before rendering. -/
structure Page where
  items : List JVal
  hasMore : Bool
  cursor : Option String

/-- The fields of a page rendered under the alias triple
`ck` (item container), `hk` (has-more), `uk` (cursor); a page without a
cursor simply omits the cursor key. -/
def pageFields (ck hk uk : String) (p : Page) : JObj :=
  [(ck, .arr p.items), (hk, .bool p.hasMore)] ++
    (match p.cursor with
     | some c => [(uk, .str c)]
     | none => [])

/-- A page rendered as the JSON object response. -/
def pageObj (ck hk uk : String) (p : Page) : JVal :=
  .obj (pageFields ck hk uk p)

/-- Whether the fetch loop continues past this page: has-more is true
and a non-empty cursor is present. -/
def pageContinues (p : Page) : Bool :=
  p.hasMore &&
    (match p.cursor with
     | some c => c != ""
     | none => false)

/-- Reference pagination: concatenate the items of every page up to and
including the first one that does not continue. -/
def specFetch : List Page → List JVal
  | [] => []
  | p :: rest => if pageContinues p then p.items ++ specFetch rest else p.items

/-- Items `get_all_usage` takes from one page rendered under container
alias `ck`: it reads only the literal `data` key, so a page contributes
its items only when `ck` is `data`. -/
def usagePageItems (ck : String) (p : Page) : List JVal :=
  if ck = "data" then p.items else []

/-- Whether `get_all_usage` continues past a page rendered under the
has-more alias `hk` and cursor alias `uk`: it reads only the literal
`has_more` and `cursor` keys, so it continues only when those are the
aliases in use, the has-more value is true and the cursor non-empty. -/
def usagePageContinues (hk uk : String) (p : Page) : Bool :=
  (if hk = "has_more" then p.hasMore else false) &&
    (match p.cursor with
     | some c => if uk = "cursor" then c != "" else false
     | none => false)

/-- Reference behaviour of `get_all_usage` over pages rendered under the
alias triple `ck`/`hk`/`uk`: concatenate each visited page's literal
`data` items up to and including the first page it does not continue
past.  At `data`/`has_more`/`cursor` this coincides with `specFetch`. -/
def specFetchUsage (ck hk uk : String) : List Page → List JVal
  | [] => []
  | p :: rest =>
      if usagePageContinues hk uk p then
        usagePageItems ck p ++ specFetchUsage ck hk uk rest
      else usagePageItems ck p

/-! ## Concrete records used in witness runs -/

/-- Two-page sequence used in concrete pagination runs. -/
def pagesW : List Page :=
  [{ items := [.num 1], hasMore := true, cursor := some "c" },
   { items := [.num 2], hasMore := false, cursor := none }]

/-- A fetched device record with identifier `"A"` and status `"active"`. -/
def devActive : JVal := .obj [("iccid", .str "A"), ("status", .str "active")]

/-- A stored coordinator state holding a usage record from a previous
successful cycle. -/
def stStale : CoordState :=
  { simcards := [], usage := [(.str "A", [("iccid", .str "A"), ("data", .num 5)])],
    account := [], balance := [] }

/-- The state stored by a successful refresh from `devActive` with no
usage/account/balance data. -/
def stW6 : CoordState :=
  { simcards := [(.str "A", [("iccid", .str "A"), ("status", .str "active")])],
    usage := [], account := [], balance := [] }

/-- The snapshot published by that refresh. -/
def snapW6 : Snapshot :=
  { simcards := [(.str "A", [("iccid", .str "A"), ("status", .str "active")])],
    usage := [], count := 1, account := [], balance := [],
    totals := { data_usage_bytes := 0, data_usage_mb_x100 := 0, total_cost := 0,
                active_sims := 1, inactive_sims := 0, sms_sent := 0,
                sms_received := 0, sms_total := 0 } }

/-- The state stored by a refresh from `stStale` in which the usage,
account and balance fetches all failed. -/
def stC1W : CoordState :=
  { simcards := [(.str "A",
      [("iccid", .str "A"), ("status", .str "active"),
       ("usage", .obj [("iccid", .str "A"), ("data", .num 5)])])],
    usage := [(.str "A", [("iccid", .str "A"), ("data", .num 5)])],
    account := [], balance := [] }

/-- The snapshot published by that refresh: the stale usage is attached
and republished. -/
def snapC1W : Snapshot :=
  { simcards := stC1W.simcards, usage := stC1W.usage, count := 1,
    account := [], balance := [],
    totals := { data_usage_bytes := 0, data_usage_mb_x100 := 0, total_cost := 0,
                active_sims := 1, inactive_sims := 0, sms_sent := 0,
                sms_received := 0, sms_total := 0 } }

/-- Bulk-run records: one keyed by `state`, one by `status`. -/
def simDisabled : JVal := .obj [("iccid", .str "A"), ("state", .str "Disabled")]

/-- A second bulk-run record in the inactive set. -/
def simInactive : JVal := .obj [("iccid", .str "B"), ("status", .str "inactive")]

/-- A per-device mutation oracle that fails on device `"A"` and succeeds
elsewhere, to exercise error capture mid-batch. -/
def oracleW : JVal → Except SimbaseError JVal :=
  fun v => if v = .str "A" then .error (.apiError "boom") else .ok .null

/-- The per-record behaviour the bulk loops are proved to implement:
`none` when the record is skipped (no truthy `iccid`, or normalized
state outside the target set), otherwise the result entry for the
attempted call — its error captured, never raised. -/
def eligibleOutcome (targets : List String) (oracle : JVal → Except SimbaseError JVal)
    (sim : JVal) : Option JObj :=
  match sim with
  | .obj fs =>
      match pyLowerState fs with
      | .ok st =>
          match jget fs "iccid" with
          | some v =>
              if truthy v && targets.contains st then some (bulkOutcome v (oracle v)) else none
          | none => none
      | .error _ => none
  | _ => none


/-- The fields of `devActive`, as stored in the device dict. -/
def devFieldsA : JObj := [("iccid", .str "A"), ("status", .str "active")]

/-- A usage record whose identifier matches no fetched device. -/
def usageZ : JVal := .obj [("iccid", .str "Z"), ("data", .num 7)]

/-- The state stored by a refresh of `devActive` with the unmatched
usage record `usageZ`. -/
def stW8 : CoordState :=
  { simcards := [(.str "A", devFieldsA)],
    usage := [(.str "Z", [("iccid", .str "Z"), ("data", .num 7)])],
    account := [], balance := [] }

/-- The snapshot published by that refresh: the unmatched usage record
is attached to no device. -/
def snapW8 : Snapshot :=
  { simcards := [(.str "A", devFieldsA)],
    usage := [(.str "Z", [("iccid", .str "Z"), ("data", .num 7)])],
    count := 1, account := [], balance := [],
    totals := { data_usage_bytes := 0, data_usage_mb_x100 := 0, total_cost := 0,
                active_sims := 1, inactive_sims := 0, sms_sent := 0,
                sms_received := 0, sms_total := 0 } }

/-! ## Helper lemmas -/

theorem jget_nil (k : String) : jget [] k = none := rfl

theorem jget_cons (k' : String) (v : JVal) (o : JObj) (k : String) :
    jget ((k', v) :: o) k = if k' = k then some v else jget o k := by
  by_cases h : k' = k <;> simp [jget, List.find?, h]

theorem firstTruthyGet_eq_none (o : JObj) (keys : List String)
    (h : ∀ k ∈ keys, ∀ v, jget o k = some v → truthy v = false) :
    firstTruthyGet o keys = none := by
  induction keys with
  | nil => rfl
  | cons a as ih =>
      have ih' := ih (fun k hk v hv => h k (List.mem_cons_of_mem a hk) v hv)
      cases hj : jget o a with
      | none => simp [firstTruthyGet, hj, ih']
      | some v =>
          have hf : truthy v = false := h a (List.mem_cons_self a as) v hj
          simp [firstTruthyGet, hj, hf, ih']

theorem firstTruthyGet_unique (o : JObj) (keys : List String) (k : String) (v : JVal)
    (hk : k ∈ keys) (hv : jget o k = some v)
    (ho : ∀ k2 ∈ keys, k2 ≠ k → jget o k2 = none) :
    firstTruthyGet o keys = if truthy v then some v else none := by
  induction keys with
  | nil => cases hk
  | cons a as ih =>
      by_cases hak : a = k
      · subst hak
        cases ht : truthy v with
        | true => simp [firstTruthyGet, hv, ht]
        | false =>
            have hrest : firstTruthyGet o as = none := by
              apply firstTruthyGet_eq_none
              intro k2 hk2 v2 hv2
              by_cases hk2a : k2 = a
              · subst hk2a; rw [hv] at hv2; cases hv2; exact ht
              · have hn := ho k2 (List.mem_cons_of_mem a hk2) hk2a
                rw [hn] at hv2; cases hv2
            simp [firstTruthyGet, hv, ht, hrest]
      · have hka : jget o a = none := ho a (List.mem_cons_self a as) hak
        have hk' : k ∈ as := by
          rcases List.mem_cons.mp hk with h | h
          · exact absurd h.symm hak
          · exact h
        have := ih hk' (fun k2 hk2 hne => ho k2 (List.mem_cons_of_mem a hk2) hne)
        simp [firstTruthyGet, hka, this]

/-! ## C10 -/

/-- C10: `validate_api_key` returns `False` exactly when the probe
request raised an authentication error, which `_request` produces
exactly for HTTP status 401; a rate-limit response, a connection
failure, and every other failing status make it return `True`. -/
theorem validate_api_key_false_iff_auth :
    (∀ code body, (validate_api_key (requestResult (.status code body)) = false ↔ code = 401)) ∧
    validate_api_key (requestResult .connectionError) = true ∧
    (∀ body, requestResult (.status 401 body) = .error .authError) ∧
    (∀ body, requestResult (.status 429 body) = .error .rateLimitError) := by
  refine ⟨?_, rfl, fun body => rfl, fun body => rfl⟩
  intro code body
  by_cases h : code = 401
  · subst h; simp [requestResult, validate_api_key]
  · simp only [requestResult, if_neg h]
    by_cases h2 : code = 429
    · subst h2; simp [validate_api_key, h]
    · simp only [if_neg h2]
      by_cases h3 : 400 ≤ code
      · simp [if_pos h3, validate_api_key, h]
      · simp [if_neg h3, validate_api_key, h]

/-! ## C3 -/

/-- C3 counterexample: on a raw-array first page the devices fetcher
returns the array's items, but the usage fetcher raises
(`response.get` on a list), so the claimed identical behaviour fails. -/
theorem raw_array_usage_cex :
    get_all_simcards [JVal.arr [.num 1]] = .ok [.num 1] ∧
    get_all_usage [JVal.arr [.num 1]] = .error "AttributeError" := ⟨rfl, rfl⟩

/-- C3 (amended): for every page sequence whose first response is a raw
JSON array, the devices fetcher returns exactly that array's items and
performs no further page requests; the usage fetcher instead raises an
`AttributeError`, so the two endpoints' pagination behaviours differ on
raw-array responses. -/
theorem raw_array_first_page :
    (∀ xs rest, get_all_simcards (JVal.arr xs :: rest) = .ok xs) ∧
    (∀ xs rest, get_all_usage (JVal.arr xs :: rest) = .error "AttributeError") := by
  exact ⟨fun xs rest => rfl, fun xs rest => rfl⟩

/-! ## C4 -/

/-- C4 counterexample: on the page `{"data": [], "simcards": [7]}` the
claim selects the present `data` key and yields no items, but the code
skips the falsy `data` value and returns the item under `simcards`. -/
theorem alias_presence_cex :
    get_all_simcards [.obj [("data", .arr []), ("simcards", .arr [.num 7])]] = .ok [.num 7] ∧
    get_all_simcards [.obj [("data", .arr []), ("simcards", .arr [.num 7])]] ≠ .ok [] := by
  exact ⟨rfl, by decide⟩

/-- C4 (amended): the paginated fetcher's alias chains select the value
of the first alias that is present with a *truthy* value — equivalently
the head of the present-and-truthy values in alias order — and a present
key holding a falsy value (empty list, `False`, empty string) is skipped
in favour of later aliases or the chain's default. -/
theorem alias_selection_truthy :
    (∀ o keys, firstTruthyGet o keys =
      (keys.filterMap (fun k => (jget o k).bind
        (fun v => if truthy v then some v else none))).head?) ∧
    (∀ o k keys v, jget o k = some v → truthy v = false →
      firstTruthyGet o (k :: keys) = firstTruthyGet o keys) := by
  constructor
  · intro o keys
    induction keys with
    | nil => rfl
    | cons a as ih =>
        cases hj : jget o a with
        | none => simp [firstTruthyGet, hj, List.filterMap_cons, ih]
        | some v =>
            cases ht : truthy v with
            | true => simp [firstTruthyGet, hj, ht, List.filterMap_cons]
            | false => simp [firstTruthyGet, hj, ht, List.filterMap_cons, ih]
  · intro o k keys v hv ht
    simp [firstTruthyGet, hv, ht]

/-! ## C2: pagination over a consistent alias set -/

theorem jget_pageFields (ck hk uk : String) (p : Page) (k : String) :
    jget (pageFields ck hk uk p) k =
      if ck = k then some (.arr p.items)
      else if hk = k then some (.bool p.hasMore)
      else
        match p.cursor with
        | some c => if uk = k then some (.str c) else none
        | none => none := by
  cases hc : p.cursor <;> simp [pageFields, hc, jget_cons, jget_nil]

theorem alias_lists_disjoint :
    (∀ k ∈ containerAliases, k ∉ hasMoreAliases ∧ k ∉ cursorAliases) ∧
    (∀ k ∈ hasMoreAliases, k ∉ containerAliases ∧ k ∉ cursorAliases) ∧
    (∀ k ∈ cursorAliases, k ∉ containerAliases ∧ k ∉ hasMoreAliases) := by
  decide

theorem pageItems_pageObj (ck hk uk : String) (p : Page)
    (hc : ck ∈ containerAliases) (hh : hk ∈ hasMoreAliases) (hu : uk ∈ cursorAliases) :
    pageItems (pageFields ck hk uk p) = p.items := by
  have hck : jget (pageFields ck hk uk p) ck = some (.arr p.items) := by
    simp [jget_pageFields]
  have hothers : ∀ k2 ∈ containerAliases, k2 ≠ ck → jget (pageFields ck hk uk p) k2 = none := by
    intro k2 hk2 hne
    rw [jget_pageFields]
    have e1 : ¬ck = k2 := fun e => hne e.symm
    have e2 : ¬hk = k2 := fun e => (alias_lists_disjoint.1 k2 hk2).1 (e ▸ hh)
    have e3 : ¬uk = k2 := fun e => (alias_lists_disjoint.1 k2 hk2).2 (e ▸ hu)
    cases p.cursor <;> simp [e1, e2, e3]
  have hfirst := firstTruthyGet_unique (pageFields ck hk uk p) containerAliases ck
    (.arr p.items) hc hck hothers
  unfold pageItems
  rw [hfirst]
  cases ht : truthy (JVal.arr p.items) with
  | true => simp
  | false =>
      have hemp : p.items = [] := by
        have := ht
        simp [truthy, List.isEmpty_iff] at this
        exact this
      simp [hemp]

theorem hasMoreB_pageObj (ck hk uk : String) (p : Page)
    (hc : ck ∈ containerAliases) (hh : hk ∈ hasMoreAliases) (hu : uk ∈ cursorAliases) :
    hasMoreB (pageFields ck hk uk p) = p.hasMore := by
  have hne : ¬ck = hk := fun e => (alias_lists_disjoint.1 ck hc).1 (e ▸ hh)
  have hhk : jget (pageFields ck hk uk p) hk = some (.bool p.hasMore) := by
    rw [jget_pageFields]
    simp [hne]
  have hothers : ∀ k2 ∈ hasMoreAliases, k2 ≠ hk → jget (pageFields ck hk uk p) k2 = none := by
    intro k2 hk2 hne2
    rw [jget_pageFields]
    have e1 : ¬ck = k2 := fun e => (alias_lists_disjoint.2.1 k2 hk2).1 (e ▸ hc)
    have e2 : ¬hk = k2 := fun e => hne2 e.symm
    have e3 : ¬uk = k2 := fun e => (alias_lists_disjoint.2.1 k2 hk2).2 (e ▸ hu)
    cases p.cursor <;> simp [e1, e2, e3]
  have hfirst := firstTruthyGet_unique (pageFields ck hk uk p) hasMoreAliases hk
    (.bool p.hasMore) hh hhk hothers
  unfold hasMoreB
  rw [hfirst]
  cases p.hasMore <;> simp [truthy]

theorem cursorB_pageObj (ck hk uk : String) (p : Page)
    (hc : ck ∈ containerAliases) (hh : hk ∈ hasMoreAliases) (hu : uk ∈ cursorAliases) :
    cursorB (pageFields ck hk uk p) =
      (match p.cursor with
       | some c => c != ""
       | none => false) := by
  cases hcur : p.cursor with
  | none =>
      have hnone : firstTruthyGet (pageFields ck hk uk p) cursorAliases = none := by
        apply firstTruthyGet_eq_none
        intro k2 hk2 v hv
        rw [jget_pageFields] at hv
        have e1 : ¬ck = k2 := fun e => (alias_lists_disjoint.2.2 k2 hk2).1 (e ▸ hc)
        have e2 : ¬hk = k2 := fun e => (alias_lists_disjoint.2.2 k2 hk2).2 (e ▸ hh)
        rw [hcur] at hv
        simp [e1, e2] at hv
      simp [cursorB, hnone]
  | some c =>
      have huk : jget (pageFields ck hk uk p) uk = some (.str c) := by
        rw [jget_pageFields]
        have e1 : ¬ck = uk := fun e => (alias_lists_disjoint.1 ck hc).2 (e ▸ hu)
        have e2 : ¬hk = uk := fun e => (alias_lists_disjoint.2.1 hk hh).2 (e ▸ hu)
        rw [hcur]
        simp [e1, e2]
      have hothers : ∀ k2 ∈ cursorAliases, k2 ≠ uk → jget (pageFields ck hk uk p) k2 = none := by
        intro k2 hk2 hne2
        rw [jget_pageFields]
        have e1 : ¬ck = k2 := fun e => (alias_lists_disjoint.2.2 k2 hk2).1 (e ▸ hc)
        have e2 : ¬hk = k2 := fun e => (alias_lists_disjoint.2.2 k2 hk2).2 (e ▸ hh)
        have e3 : ¬uk = k2 := fun e => hne2 e.symm
        rw [hcur]
        simp [e1, e2, e3]
      have hfirst := firstTruthyGet_unique (pageFields ck hk uk p) cursorAliases uk
        (.str c) hu huk hothers
      unfold cursorB
      rw [hfirst]
      cases hce : (c != "") <;> simp [truthy, hce]

theorem get_all_simcards_cons_obj (o : JObj) (rest : List JVal) :
    get_all_simcards (.obj o :: rest) =
      if hasMoreB o && cursorB o then
        (get_all_simcards rest).map (fun tl => pageItems o ++ tl)
      else .ok (pageItems o) := rfl

theorem get_all_usage_cons_obj (o : JObj) (rest : List JVal) :
    get_all_usage (.obj o :: rest) =
      (match pyIter ((jget o "data").getD (.arr [])) with
       | .error e => .error e
       | .ok items =>
           if truthy ((jget o "has_more").getD (.bool false)) then
             if truthy ((jget o "cursor").getD .null) then
               match get_all_usage rest with
               | .error e => .error e
               | .ok tl => .ok (items ++ tl)
             else .ok items
           else .ok items) := by
  show Except.bind (pyIter ((jget o "data").getD (.arr []))) _ = _
  cases pyIter ((jget o "data").getD (.arr [])) with
  | error e => rfl
  | ok items =>
      show (if truthy ((jget o "has_more").getD (.bool false)) then _ else _) = _
      by_cases h1 : truthy ((jget o "has_more").getD (.bool false)) = true
      · simp only [h1, if_true]
        by_cases h2 : truthy ((jget o "cursor").getD .null) = true
        · simp only [h2, if_true]
          show Except.bind (get_all_usage rest) _ = _
          cases get_all_usage rest <;> rfl
        · simp only [Bool.not_eq_true] at h2
          simp only [h2, Bool.false_eq_true, if_false]
      · simp only [Bool.not_eq_true] at h1
        simp only [h1, Bool.false_eq_true, if_false]

theorem get_all_simcards_pages (ck hk uk : String)
    (hc : ck ∈ containerAliases) (hh : hk ∈ hasMoreAliases) (hu : uk ∈ cursorAliases) :
    ∀ pages : List Page, pages ≠ [] →
      (∀ q, pages.getLast? = some q → pageContinues q = false) →
      get_all_simcards (pages.map (pageObj ck hk uk)) = .ok (specFetch pages) := by
  intro pages
  induction pages with
  | nil => intro h; exact absurd rfl h
  | cons p rest ih =>
      intro _ hlast
      have hcond : (hasMoreB (pageFields ck hk uk p) && cursorB (pageFields ck hk uk p)) =
          pageContinues p := by
        rw [hasMoreB_pageObj ck hk uk p hc hh hu, cursorB_pageObj ck hk uk p hc hh hu]
        rfl
      have hitems := pageItems_pageObj ck hk uk p hc hh hu
      have hobj : pageObj ck hk uk p = .obj (pageFields ck hk uk p) := rfl
      cases hpc : pageContinues p with
      | false =>
          rw [hpc] at hcond
          rw [List.map_cons, hobj, get_all_simcards_cons_obj, hcond]
          simp [hitems, specFetch, hpc]
      | true =>
          rw [hpc] at hcond
          cases rest with
          | nil =>
              have := hlast p (by simp)
              rw [hpc] at this
              cases this
          | cons r rs =>
              have hlast' : ∀ q, (r :: rs).getLast? = some q → pageContinues q = false := by
                intro q hq
                exact hlast q (by rw [List.getLast?_cons_cons]; exact hq)
              have ihh := ih (by simp) hlast'
              rw [List.map_cons, hobj, get_all_simcards_cons_obj, hcond, ihh]
              simp [hitems, specFetch, hpc, Except.map]

theorem get_all_usage_pages :
    ∀ pages : List Page, pages ≠ [] →
      (∀ q, pages.getLast? = some q → pageContinues q = false) →
      get_all_usage (pages.map (pageObj "data" "has_more" "cursor")) = .ok (specFetch pages) := by
  intro pages
  induction pages with
  | nil => intro h; exact absurd rfl h
  | cons p rest ih =>
      intro _ hlast
      have hdata : jget (pageFields "data" "has_more" "cursor" p) "data" = some (.arr p.items) := by
        simp [jget_pageFields]
      have hhm : jget (pageFields "data" "has_more" "cursor" p) "has_more" =
          some (.bool p.hasMore) := by
        rw [jget_pageFields]
        simp
      have hcur : jget (pageFields "data" "has_more" "cursor" p) "cursor" =
          (match p.cursor with
           | some c => some (.str c)
           | none => none) := by
        cases hcv : p.cursor <;> rw [jget_pageFields] <;> simp [hcv]
      have hobj : pageObj "data" "has_more" "cursor" p =
          .obj (pageFields "data" "has_more" "cursor" p) := rfl
      cases hb : p.hasMore with
      | false =>
          have hpc : pageContinues p = false := by simp [pageContinues, hb]
          rw [List.map_cons, hobj, get_all_usage_cons_obj, hdata, hhm]
          simp [truthy, hb, specFetch, hpc, pyIter]
      | true =>
          cases hcv : p.cursor with
          | none =>
              have hpc : pageContinues p = false := by simp [pageContinues, hb, hcv]
              rw [List.map_cons, hobj, get_all_usage_cons_obj, hdata, hhm, hcur]
              simp [truthy, hb, hcv, specFetch, hpc, pyIter]
          | some c =>
              by_cases hce : c = ""
              · have hpc : pageContinues p = false := by
                  simp [pageContinues, hb, hcv, hce]
                rw [List.map_cons, hobj, get_all_usage_cons_obj, hdata, hhm, hcur]
                simp [truthy, hb, hcv, hce, specFetch, hpc, pyIter]
              · have hpc : pageContinues p = true := by
                  simp [pageContinues, hb, hcv, hce]
                cases rest with
                | nil =>
                    have := hlast p (by simp)
                    rw [hpc] at this
                    cases this
                | cons r rs =>
                    have hlast' : ∀ q, (r :: rs).getLast? = some q →
                        pageContinues q = false := by
                      intro q hq
                      exact hlast q (by rw [List.getLast?_cons_cons]; exact hq)
                    have ihh := ih (by simp) hlast'
                    rw [List.map_cons, hobj, get_all_usage_cons_obj, hdata, hhm, hcur, ihh]
                    simp [truthy, hb, hcv, hce, specFetch, hpc, pyIter]


theorem usagePageContinues_pageContinues (hk uk : String) (q : Page)
    (h : usagePageContinues hk uk q = true) : pageContinues q = true := by
  unfold usagePageContinues at h
  unfold pageContinues
  cases hcv : q.cursor with
  | none =>
      rw [hcv] at h
      simp at h
  | some c =>
      rw [hcv] at h
      simp only [Bool.and_eq_true] at h ⊢
      obtain ⟨h1, h2⟩ := h
      refine ⟨?_, ?_⟩
      · by_cases hhk : hk = "has_more"
        · rw [if_pos hhk] at h1; exact h1
        · rw [if_neg hhk] at h1; cases h1
      · by_cases huk : uk = "cursor"
        · rw [if_pos huk] at h2; exact h2
        · rw [if_neg huk] at h2; cases h2

theorem get_all_usage_pages_general (ck hk uk : String)
    (hc : ck ∈ containerAliases) (hh : hk ∈ hasMoreAliases) (hu : uk ∈ cursorAliases) :
    ∀ pages : List Page, pages ≠ [] →
      (∀ q, pages.getLast? = some q → pageContinues q = false) →
      get_all_usage (pages.map (pageObj ck hk uk)) = .ok (specFetchUsage ck hk uk pages) := by
  have hmemD : ("data" : String) ∈ containerAliases := by decide
  have hmemH : ("has_more" : String) ∈ hasMoreAliases := by decide
  have hmemC : ("cursor" : String) ∈ cursorAliases := by decide
  have hkD : ¬hk = "data" := fun e => (alias_lists_disjoint.1 "data" hmemD).1 (e ▸ hh)
  have huD : ¬uk = "data" := fun e => (alias_lists_disjoint.1 "data" hmemD).2 (e ▸ hu)
  have hcH : ¬ck = "has_more" := fun e => (alias_lists_disjoint.2.1 "has_more" hmemH).1 (e ▸ hc)
  have huH : ¬uk = "has_more" := fun e => (alias_lists_disjoint.2.1 "has_more" hmemH).2 (e ▸ hu)
  have hcC : ¬ck = "cursor" := fun e => (alias_lists_disjoint.2.2 "cursor" hmemC).1 (e ▸ hc)
  have hkC : ¬hk = "cursor" := fun e => (alias_lists_disjoint.2.2 "cursor" hmemC).2 (e ▸ hh)
  intro pages
  induction pages with
  | nil => intro h; exact absurd rfl h
  | cons p rest ih =>
      intro _ hlast
      have hdata : jget (pageFields ck hk uk p) "data" =
          (if ck = "data" then some (.arr p.items) else none) := by
        rw [jget_pageFields]
        by_cases hck : ck = "data"
        · simp [hck]
        · cases p.cursor <;> simp [hck, hkD, huD]
      have hhm : jget (pageFields ck hk uk p) "has_more" =
          (if hk = "has_more" then some (.bool p.hasMore) else none) := by
        rw [jget_pageFields]
        by_cases hhk : hk = "has_more"
        · simp [hcH, hhk]
        · cases p.cursor <;> simp [hcH, hhk, huH]
      have hcur : jget (pageFields ck hk uk p) "cursor" =
          (match p.cursor with
           | some c => if uk = "cursor" then some (.str c) else none
           | none => none) := by
        rw [jget_pageFields]
        cases p.cursor <;> simp [hcC, hkC]
      have hitems : pyIter ((jget (pageFields ck hk uk p) "data").getD (.arr [])) =
          .ok (usagePageItems ck p) := by
        rw [hdata]
        by_cases hck : ck = "data" <;> simp [hck, pyIter, usagePageItems]
      have hHM : truthy ((jget (pageFields ck hk uk p) "has_more").getD (.bool false)) =
          (if hk = "has_more" then p.hasMore else false) := by
        rw [hhm]
        by_cases hhk : hk = "has_more" <;> simp [hhk, truthy]
      have hCU : truthy ((jget (pageFields ck hk uk p) "cursor").getD .null) =
          (match p.cursor with
           | some c => if uk = "cursor" then (c != "") else false
           | none => false) := by
        rw [hcur]
        cases p.cursor with
        | none => simp [truthy]
        | some c => by_cases huk : uk = "cursor" <;> simp [huk, truthy]
      have hobj : pageObj ck hk uk p = .obj (pageFields ck hk uk p) := rfl
      rw [List.map_cons, hobj, get_all_usage_cons_obj, hitems, hHM, hCU]
      cases hA : (if hk = "has_more" then p.hasMore else false) with
      | false =>
          have hupc : usagePageContinues hk uk p = false := by
            unfold usagePageContinues
            rw [hA]
            rfl
          simp [specFetchUsage, hupc]
      | true =>
          cases hcv : p.cursor with
          | none =>
              have hupc : usagePageContinues hk uk p = false := by
                unfold usagePageContinues
                rw [hcv]
                simp
              simp [specFetchUsage, hupc]
          | some c =>
              by_cases huk : uk = "cursor"
              · subst huk
                by_cases hce : c = ""
                · have hupc : usagePageContinues hk "cursor" p = false := by
                    unfold usagePageContinues
                    rw [hcv]
                    simp [hce]
                  simp [hce, specFetchUsage, hupc]
                · have hupc : usagePageContinues hk "cursor" p = true := by
                    unfold usagePageContinues
                    rw [hA, hcv]
                    simp [hce]
                  have hpc : pageContinues p = true :=
                    usagePageContinues_pageContinues hk "cursor" p hupc
                  cases rest with
                  | nil =>
                      have := hlast p (by simp)
                      rw [hpc] at this
                      cases this
                  | cons r rs =>
                      have hlast' : ∀ q, (r :: rs).getLast? = some q →
                          pageContinues q = false := by
                        intro q hq
                        exact hlast q (by rw [List.getLast?_cons_cons]; exact hq)
                      have ihh := ih (by simp) hlast'
                      rw [ihh]
                      simp [hce, specFetchUsage, hupc]
              · have hupc : usagePageContinues hk uk p = false := by
                  unfold usagePageContinues
                  rw [hcv]
                  simp [huk]
                simp [huk, specFetchUsage, hupc]

/-- C2 (amended): for every nonempty finite page sequence rendered under
one consistent alias set whose final page is terminal, the devices
fetcher returns the items of all pages up to and including the first
page whose has-more value is falsy or whose cursor is absent or empty,
concatenated in page order, and stops exactly there.  The usage fetcher
reads only the literal `data`/`has_more`/`cursor` keys regardless of the
alias set: each visited page contributes its items only when the
container alias is the literal `data` key (nothing otherwise), and the
loop continues past a page only when the has-more alias is the literal
`has_more` key with a true value and the cursor alias is the literal
`cursor` key with a non-empty value — so the usage fetcher satisfies the
claimed behaviour exactly for the primary `data`/`has_more`/`cursor`
alias set, and the claimed "any alias set, both endpoints" fails. -/
theorem fetchAll_consistent_aliases :
    (∀ ck hk uk, ck ∈ containerAliases → hk ∈ hasMoreAliases → uk ∈ cursorAliases →
      ∀ pages : List Page, pages ≠ [] →
        (∀ q, pages.getLast? = some q → pageContinues q = false) →
        get_all_simcards (pages.map (pageObj ck hk uk)) = .ok (specFetch pages)) ∧
    (∀ ck hk uk, ck ∈ containerAliases → hk ∈ hasMoreAliases → uk ∈ cursorAliases →
      ∀ pages : List Page, pages ≠ [] →
        (∀ q, pages.getLast? = some q → pageContinues q = false) →
        get_all_usage (pages.map (pageObj ck hk uk)) =
          .ok (specFetchUsage ck hk uk pages)) ∧
    (∀ pages : List Page, pages ≠ [] →
      (∀ q, pages.getLast? = some q → pageContinues q = false) →
      get_all_usage (pages.map (pageObj "data" "has_more" "cursor")) =
        .ok (specFetch pages)) :=
  ⟨fun ck hk uk hc hh hu => get_all_simcards_pages ck hk uk hc hh hu,
   fun ck hk uk hc hh hu => get_all_usage_pages_general ck hk uk hc hh hu,
   get_all_usage_pages⟩

/-- Witness for C2: over a concrete two-page sequence, the devices
fetcher under an alternative alias set and the usage fetcher under the
primary alias set return both items, while the usage fetcher under the
`simcards`/`has_more`/`cursor` alias set follows the has-more/cursor
keys past the first page yet collects no items. -/
theorem fetchAll_consistent_aliases_witness :
    get_all_simcards (pagesW.map (pageObj "simcards" "hasMore" "next_cursor")) =
      .ok (specFetch pagesW) ∧
    get_all_usage (pagesW.map (pageObj "simcards" "has_more" "cursor")) =
      .ok (specFetchUsage "simcards" "has_more" "cursor" pagesW) ∧
    get_all_usage (pagesW.map (pageObj "data" "has_more" "cursor")) =
      .ok (specFetch pagesW) := by
  have hne : pagesW ≠ [] := by simp [pagesW]
  have hlast : ∀ q, pagesW.getLast? = some q → pageContinues q = false := by
    intro q hq
    rw [show pagesW.getLast? =
      some { items := [.num 2], hasMore := false, cursor := none } from rfl] at hq
    cases hq
    rfl
  exact ⟨fetchAll_consistent_aliases.1 "simcards" "hasMore" "next_cursor"
      (by decide) (by decide) (by decide) pagesW hne hlast,
    fetchAll_consistent_aliases.2.1 "simcards" "has_more" "cursor"
      (by decide) (by decide) (by decide) pagesW hne hlast,
    fetchAll_consistent_aliases.2.2 pagesW hne hlast⟩

/-- C2 counterexample: a single terminal usage page rendered under the
`items`/`hasMore`/`nextCursor` alias set.  The devices fetcher returns
its item, but the usage fetcher — which the claim asserts behaves the
same — returns no items at all. -/
theorem usage_alias_cex :
    get_all_usage
        [pageObj "items" "hasMore" "nextCursor"
          { items := [.num 5], hasMore := false, cursor := none }] = .ok [] ∧
    get_all_simcards
        [pageObj "items" "hasMore" "nextCursor"
          { items := [.num 5], hasMore := false, cursor := none }] = .ok [.num 5] :=
  ⟨rfl, rfl⟩

/-! ## C6/C7: totals and status classification -/

theorem moneyStep_counts (acc : RawTotals) (sim : JObj) (r : RawTotals)
    (h : moneyStep acc sim = .ok r) :
    r.active = acc.active ∧ r.inactive = acc.inactive := by
  unfold moneyStep at h
  split at h
  · split at h
    · cases h
    · split at h
      · cases h
      · split at h
        · cases h
        · cases h
          exact ⟨rfl, rfl⟩
  · cases h
    exact ⟨rfl, rfl⟩

theorem costStep_counts (acc : RawTotals) (sim : JObj) :
    (costStep acc sim).active = acc.active ∧ (costStep acc sim).inactive = acc.inactive := by
  unfold costStep
  repeat' split
  all_goals exact ⟨rfl, rfl⟩

theorem totalsStep_counts (acc : RawTotals) (sim : JObj) (r : RawTotals)
    (h : totalsStep acc sim = .ok r) :
    r.active + r.inactive = acc.active + acc.inactive + 1 := by
  unfold totalsStep at h
  cases hm : moneyStep acc sim with
  | error e =>
      simp only [hm] at h
      exact Except.noConfusion h
  | ok a1 =>
      simp only [hm] at h
      obtain ⟨ha, hi⟩ := moneyStep_counts acc sim a1 hm
      cases hc : classifyActive sim with
      | error e =>
          simp only [hc] at h
          exact Except.noConfusion h
      | ok act =>
          simp only [hc] at h
          obtain ⟨ca, ci⟩ := costStep_counts a1 sim
          split at h
          · cases h
            dsimp only
            omega
          · cases h
            dsimp only
            omega

theorem totalsFold_counts : ∀ (sims : List JObj) (acc r : RawTotals),
    totalsFold acc sims = .ok r →
    r.active + r.inactive = acc.active + acc.inactive + sims.length := by
  intro sims
  induction sims with
  | nil =>
      intro acc r h
      cases h
      simp
  | cons s rest ih =>
      intro acc r h
      unfold totalsFold at h
      cases hs : totalsStep acc s with
      | error e =>
          simp only [hs] at h
          exact Except.noConfusion h
      | ok a =>
          simp only [hs] at h
          have h1 := totalsStep_counts acc s a hs
          have h2 := ih a r h
          simp only [List.length_cons]
          omega

/-- C6: whenever a refresh cycle succeeds, the published totals satisfy
`active_sims + inactive_sims = ` the number of devices in the snapshot's
device mapping (which is also the published `count`) — the status loop
increments exactly one of the two counters per device, for every status
casing and for unknown or missing statuses. -/
theorem totals_active_inactive_sum (st : CoordState)
    (devR usageR : Except SimbaseError (List JVal))
    (accountR balanceR : Except SimbaseError JObj)
    (st' : CoordState) (snap : Snapshot)
    (h : async_update_data st devR usageR accountR balanceR = .ok (st', snap)) :
    snap.totals.active_sims + snap.totals.inactive_sims = snap.simcards.length ∧
    snap.count = snap.simcards.length := by
  unfold async_update_data at h
  cases devR with
  | error e => cases h
  | ok simList =>
      cases hbd : buildKeyedDict [] simList with
      | error e =>
          simp only [hbd] at h
          exact Except.noConfusion h
      | ok sims0 =>
          simp only [hbd] at h
          cases hus : usageResult st usageR with
          | error e =>
              simp only [hus] at h
              exact Except.noConfusion h
          | ok usageD =>
              simp only [hus] at h
              cases htf : totalsFold initRawTotals
                  ((processSims sims0 usageD).map (fun p => p.2)) with
              | error e =>
                  simp only [htf] at h
                  exact Except.noConfusion h
              | ok raw =>
                  simp only [htf] at h
                  cases h
                  have hc := totalsFold_counts _ _ _ htf
                  simp only [initRawTotals, List.length_map] at hc
                  exact ⟨by simpa [mkTotals] using hc, rfl⟩

/-- Witness for C6: a concrete one-device refresh succeeds and its
totals satisfy the sum invariant. -/
theorem totals_active_inactive_sum_witness :
    (async_update_data initCoordState (.ok [devActive]) (.ok []) (.ok []) (.ok [])
      = .ok (stW6, snapW6)) ∧
    (snapW6.totals.active_sims + snapW6.totals.inactive_sims = snapW6.simcards.length ∧
      snapW6.count = snapW6.simcards.length) :=
  ⟨by decide,
   totals_active_inactive_sum initCoordState (.ok [devActive]) (.ok []) (.ok []) (.ok [])
     stW6 snapW6 (by decide)⟩

/-- C7: the status classification lower-cases the status string and
tests membership in the active set: for every status string `s` the
device classifies as active exactly when `lower(s)` is `"enabled"` or
`"active"`; in particular `"ENABLED"`, `"Active"`, `"active"` classify
active, while `"suspended"`, `""` and a missing status classify
inactive. -/
theorem status_classification :
    (∀ s : String, classifyActive [("status", .str s)] =
      .ok (pyLower s = "enabled" || pyLower s = "active")) ∧
    classifyActive [("status", .str "ENABLED")] = .ok true ∧
    classifyActive [("status", .str "Active")] = .ok true ∧
    classifyActive [("status", .str "active")] = .ok true ∧
    classifyActive [("status", .str "suspended")] = .ok false ∧
    classifyActive [("status", .str "")] = .ok false ∧
    classifyActive [] = .ok false := by
  refine ⟨?_, by decide, by decide, by decide, by decide, by decide, by decide⟩
  intro s
  by_cases hs : s = ""
  · subst hs
    decide
  · unfold classifyActive pyLowerState
    have h1 : jget [("status", JVal.str s)] "state" = none := by
      simp [jget, List.find?]
    have h2 : jget [("status", JVal.str s)] "status" = some (.str s) := by
      simp [jget, List.find?]
    simp [firstTruthyGet, h1, h2, truthy, hs, Except.map]

/-! ## C1/C5: refresh-cycle failure modes and idempotence -/

/-- C1 counterexample: starting from a state holding usage from a
previous cycle, a cycle whose usage fetch fails (devices succeed) still
succeeds, but publishes the *stale* usage mapping — not an empty one as
the claim asserts. -/
theorem stale_usage_cex :
    (async_update_data stStale (.ok [devActive]) (.error (.apiError "u500"))
        (.error (.apiError "a500")) (.error (.apiError "b500"))) = .ok (stC1W, snapC1W) ∧
    snapC1W.usage ≠ [] := ⟨by decide, by decide⟩

/-- C1 (amended): a device-list API error makes the cycle raise
`UpdateFailed` and publish nothing (the stored mapping is only replaced
on success).  When the device list succeeds, each remaining section is
handled independently: whenever the cycle succeeds, the published
account and balance sections are the fetched dict on success and empty
on an API error of that fetch alone; a usage-fetch API error leaves the
published usage section at the previous cycle's mapping (empty only if
nothing had been stored), rather than emptying it; the device data is
present — the fetched devices merged with the published usage mapping;
and whether the cycle fails, and with which error, is independent of
the account and balance outcomes, so an account or balance failure
alone never fails the cycle. -/
theorem refresh_cycle_failure_modes :
    (∀ st e usageR accountR balanceR,
      async_update_data st (.error e) usageR accountR balanceR = .error .updateFailed) ∧
    (∀ st devs usageR accountR balanceR st' snap,
      async_update_data st (.ok devs) usageR accountR balanceR = .ok (st', snap) →
      snap.account = sectionOf accountR ∧
      snap.balance = sectionOf balanceR ∧
      (∀ ea, accountR = .error ea → snap.account = []) ∧
      (∀ eb, balanceR = .error eb → snap.balance = []) ∧
      (∀ eu, usageR = .error eu → snap.usage = st.usage ∧ st'.usage = st.usage) ∧
      (buildKeyedDict [] devs).map (fun sims0 => processSims sims0 snap.usage) =
        .ok snap.simcards) ∧
    (∀ st devs usageR accountR balanceR accountR' balanceR' er,
      (async_update_data st (.ok devs) usageR accountR balanceR = .error er ↔
        async_update_data st (.ok devs) usageR accountR' balanceR' = .error er)) := by
  refine ⟨fun st e usageR accountR balanceR => rfl, ?_, ?_⟩
  · intro st devs usageR accountR balanceR st' snap h
    unfold async_update_data at h
    cases hbd : buildKeyedDict [] devs with
    | error e =>
        simp only [hbd] at h
        exact Except.noConfusion h
    | ok sims0 =>
        simp only [hbd] at h
        cases hus : usageResult st usageR with
        | error e =>
            simp only [hus] at h
            exact Except.noConfusion h
        | ok usageD =>
            simp only [hus] at h
            cases htf : totalsFold initRawTotals
                ((processSims sims0 usageD).map (fun p => p.2)) with
            | error e =>
                simp only [htf] at h
                exact Except.noConfusion h
            | ok raw =>
                simp only [htf] at h
                cases h
                refine ⟨rfl, rfl, ?_, ?_, ?_, rfl⟩
                · intro ea hea
                  rw [hea]
                  rfl
                · intro eb heb
                  rw [heb]
                  rfl
                · intro eu heu
                  rw [heu] at hus
                  simp only [usageResult] at hus
                  cases hus
                  exact ⟨rfl, rfl⟩
  · intro st devs usageR accountR balanceR accountR' balanceR' er
    cases hbd : buildKeyedDict [] devs with
    | error e => simp only [async_update_data, hbd]
    | ok sims0 =>
        cases hus : usageResult st usageR with
        | error e => simp only [async_update_data, hbd, hus]
        | ok usageD =>
            cases htf : totalsFold initRawTotals
                ((processSims sims0 usageD).map (fun p => p.2)) with
            | error e => simp only [async_update_data, hbd, hus, htf]
            | ok raw =>
                simp only [async_update_data, hbd, hus, htf]
                constructor <;> intro hx <;> exact Except.noConfusion hx

/-- Witness for C1.  A cycle in which only the account fetch fails (the
spec's 404 scenario): it succeeds, its account section is empty, its
balance section is the fetched dict, the device data is present, and
its failure behaviour matches the all-sections-ok cycle.  A second
cycle in which only the usage fetch fails keeps the stale usage
mapping. -/
theorem refresh_cycle_failure_modes_witness :
    (async_update_data initCoordState (.ok [devActive]) (.ok [])
        (.error (.apiError "Account 404")) (.ok []) = .ok (stW6, snapW6)) ∧
    (snapW6.account = sectionOf (.error (.apiError "Account 404")) ∧
      snapW6.balance = sectionOf (.ok ([] : JObj)) ∧
      snapW6.account = [] ∧
      (buildKeyedDict [] [devActive]).map
        (fun sims0 => processSims sims0 snapW6.usage) = .ok snapW6.simcards) ∧
    (async_update_data initCoordState (.ok [devActive]) (.ok [])
        (.error (.apiError "Account 404")) (.ok []) = .error .updateFailed ↔
      async_update_data initCoordState (.ok [devActive]) (.ok []) (.ok []) (.ok [])
        = .error .updateFailed) ∧
    (async_update_data stStale (.ok [devActive]) (.error (.apiError "u"))
        (.ok []) (.ok []) = .ok (stC1W, snapC1W)) ∧
    (snapC1W.usage = stStale.usage ∧ stC1W.usage = stStale.usage) := by
  have T := refresh_cycle_failure_modes.2.1 initCoordState [devActive] (.ok [])
    (.error (.apiError "Account 404")) (.ok []) stW6 snapW6 (by decide)
  have Tu := refresh_cycle_failure_modes.2.1 stStale [devActive]
    (.error (.apiError "u")) (.ok []) (.ok []) stC1W snapC1W (by decide)
  exact ⟨by decide,
    ⟨T.1, T.2.1, T.2.2.1 (.apiError "Account 404") rfl, T.2.2.2.2.2⟩,
    refresh_cycle_failure_modes.2.2 initCoordState [devActive] (.ok [])
      (.error (.apiError "Account 404")) (.ok []) (.ok []) (.ok []) .updateFailed,
    by decide,
    Tu.2.2.2.2.1 (.apiError "u") rfl⟩

/-- C5: the merge is a pure function of the stored state and the four
fetch outcomes (it is a Lean function), and it is idempotent in the
stateful sense: re-running the cycle from the state a successful run
produced, with the same four fetch outcomes, yields the bit-identical
state and snapshot. -/
theorem merge_idempotent (st : CoordState)
    (devR usageR : Except SimbaseError (List JVal))
    (accountR balanceR : Except SimbaseError JObj)
    (st' : CoordState) (snap : Snapshot)
    (h : async_update_data st devR usageR accountR balanceR = .ok (st', snap)) :
    async_update_data st' devR usageR accountR balanceR = .ok (st', snap) := by
  unfold async_update_data at h ⊢
  cases devR with
  | error e => exact Except.noConfusion h
  | ok simList =>
      cases hbd : buildKeyedDict [] simList with
      | error e =>
          simp only [hbd] at h
          exact Except.noConfusion h
      | ok sims0 =>
          simp only [hbd] at h ⊢
          cases usageR with
          | ok ulist =>
              cases hus : buildKeyedDict [] ulist with
              | error e =>
                  simp only [usageResult, hus] at h
                  exact Except.noConfusion h
              | ok usageD =>
                  simp only [usageResult, hus] at h ⊢
                  cases htf : totalsFold initRawTotals
                      ((processSims sims0 usageD).map (fun p => p.2)) with
                  | error e =>
                      simp only [htf] at h
                      exact Except.noConfusion h
                  | ok raw =>
                      simp only [htf] at h ⊢
                      exact h
          | error eu =>
              simp only [usageResult] at h ⊢
              cases htf : totalsFold initRawTotals
                  ((processSims sims0 st.usage).map (fun p => p.2)) with
              | error e =>
                  simp only [htf] at h
                  exact Except.noConfusion h
              | ok raw =>
                  simp only [htf] at h
                  cases h
                  simp only [htf]

/-- Witness for C5: re-running the concrete one-device cycle from its
own output state reproduces the identical output. -/
theorem merge_idempotent_witness :
    (async_update_data initCoordState (.ok [devActive]) (.ok []) (.ok []) (.ok [])
      = .ok (stW6, snapW6)) ∧
    async_update_data stW6 (.ok [devActive]) (.ok []) (.ok []) (.ok [])
      = .ok (stW6, snapW6) :=
  ⟨by decide,
   merge_idempotent initCoordState (.ok [devActive]) (.ok []) (.ok []) (.ok [])
     stW6 snapW6 (by decide)⟩

/-! ## C8: unmatched usage is dropped; device count bound -/

theorem dset_length (d : List (JVal × JObj)) (k : JVal) (v : JObj) :
    (dset d k v).length ≤ d.length + 1 := by
  induction d with
  | nil => simp [dset]
  | cons p rest ih =>
      obtain ⟨k', v'⟩ := p
      by_cases h : k' = k
      · simp [dset, h]
      · simp only [dset, if_neg h, List.length_cons]
        omega

theorem buildKeyedDict_length : ∀ (rs : List JVal) (acc d : List (JVal × JObj)),
    buildKeyedDict acc rs = .ok d → d.length ≤ acc.length + rs.length := by
  intro rs
  induction rs with
  | nil =>
      intro acc d h
      cases h
      simp
  | cons r rest ih =>
      intro acc d h
      cases r with
      | obj fs =>
          simp only [buildKeyedDict] at h
          cases hf : firstTruthyGet fs iccidAliases with
          | some k =>
              simp only [hf] at h
              have h1 := ih (dset acc k fs) d h
              have h2 := dset_length acc k fs
              simp only [List.length_cons]
              omega
          | none =>
              simp only [hf] at h
              have h1 := ih acc d h
              simp only [List.length_cons]
              omega
      | null => simp only [buildKeyedDict] at h; exact Except.noConfusion h
      | bool b => simp only [buildKeyedDict] at h; exact Except.noConfusion h
      | num n => simp only [buildKeyedDict] at h; exact Except.noConfusion h
      | str s => simp only [buildKeyedDict] at h; exact Except.noConfusion h
      | arr xs => simp only [buildKeyedDict] at h; exact Except.noConfusion h

theorem mergeUsage_mem (sims usage : List (JVal × JObj)) (k : JVal) (sim : JObj)
    (h : (k, sim) ∈ mergeUsage sims usage) :
    ∃ s0, (k, s0) ∈ sims ∧
      sim = (match dget usage k with
             | some u => jset s0 "usage" (.obj u)
             | none => s0) := by
  unfold mergeUsage at h
  rw [List.mem_map] at h
  obtain ⟨⟨k0, s0⟩, hp, he⟩ := h
  cases hd : dget usage k0 with
  | some u =>
      simp only [hd] at he
      cases he
      exact ⟨s0, hp, by simp [hd]⟩
  | none =>
      simp only [hd] at he
      cases he
      refine ⟨_, hp, ?_⟩
      simp [hd]

theorem processSims_length (sims0 usageD : List (JVal × JObj)) :
    (processSims sims0 usageD).length = sims0.length := by
  simp [processSims, mergeUsage]

theorem processSims_mem (sims0 usageD : List (JVal × JObj)) (k : JVal) (sim : JObj)
    (h : (k, sim) ∈ processSims sims0 usageD) (hnone : dget usageD k = none) :
    ∃ s0, (k, s0) ∈ sims0 ∧ sim = addNetworkInfo s0 := by
  unfold processSims at h
  rw [List.mem_map] at h
  obtain ⟨⟨k1, s1⟩, hp, he⟩ := h
  cases he
  obtain ⟨s0, hs0, hform⟩ := mergeUsage_mem sims0 usageD k1 s1 hp
  rw [hnone] at hform
  exact ⟨s0, hs0, by rw [hform]⟩

/-- C8: when a refresh cycle succeeds, the snapshot's device mapping has
at most as many entries as the fetched device list, and a device whose
key matches no entry of the published usage mapping received no usage
attachment — it is the network-processed original record, so every
unmatched usage record is attached to no device. -/
theorem usage_unmatched_dropped (st : CoordState) (devs : List JVal)
    (usageR : Except SimbaseError (List JVal))
    (accountR balanceR : Except SimbaseError JObj)
    (st' : CoordState) (snap : Snapshot)
    (h : async_update_data st (.ok devs) usageR accountR balanceR = .ok (st', snap)) :
    snap.simcards.length ≤ devs.length ∧
    (∀ sims0, buildKeyedDict [] devs = .ok sims0 →
      ∀ k sim, (k, sim) ∈ snap.simcards → dget snap.usage k = none →
        ∃ sim0, (k, sim0) ∈ sims0 ∧ sim = addNetworkInfo sim0) := by
  unfold async_update_data at h
  cases hbd : buildKeyedDict [] devs with
  | error e =>
      simp only [hbd] at h
      exact Except.noConfusion h
  | ok sims0 =>
      simp only [hbd] at h
      cases hus : usageResult st usageR with
      | error e =>
          simp only [hus] at h
          exact Except.noConfusion h
      | ok usageD =>
          simp only [hus] at h
          cases htf : totalsFold initRawTotals
              ((processSims sims0 usageD).map (fun p => p.2)) with
          | error e =>
              simp only [htf] at h
              exact Except.noConfusion h
          | ok raw =>
              simp only [htf] at h
              cases h
              constructor
              · have h1 := buildKeyedDict_length devs [] sims0 hbd
                have h2 := processSims_length sims0 usageD
                dsimp only
                rw [h2]
                simpa using h1
              · intro sims0' hbd' k sim hmem hnone
                cases hbd'
                dsimp only at hmem hnone
                exact processSims_mem sims0 usageD k sim hmem hnone

/-! ## C9: bulk activate/deactivate -/

theorem bulkToggle_cons_obj (targets : List String)
    (oracle : JVal → Except SimbaseError JVal) (fs : JObj) (rest : List JVal) :
    bulkToggle targets oracle (.obj fs :: rest) =
      (match pyLowerState fs with
       | .error e => .error e
       | .ok st =>
           match bulkToggle targets oracle rest with
           | .error e => .error e
           | .ok tl =>
               .ok ((match jget fs "iccid" with
                     | some v =>
                         if truthy v && targets.contains st then [bulkOutcome v (oracle v)]
                         else []
                     | none => []) ++ tl)) := by
  show Except.bind (pyLowerState fs) _ = _
  cases pyLowerState fs with
  | error e => rfl
  | ok st =>
      show Except.bind (bulkToggle targets oracle rest) _ = _
      cases bulkToggle targets oracle rest <;> rfl

theorem bulkToggle_filterMap (targets : List String)
    (oracle : JVal → Except SimbaseError JVal) :
    ∀ (sims : List JVal) (rs : List JObj),
      bulkToggle targets oracle sims = .ok rs →
      rs = sims.filterMap (eligibleOutcome targets oracle) := by
  intro sims
  induction sims with
  | nil =>
      intro rs h
      cases h
      rfl
  | cons sim rest ih =>
      intro rs h
      cases sim with
      | obj fs =>
          rw [bulkToggle_cons_obj] at h
          cases hst : pyLowerState fs with
          | error e =>
              simp only [hst] at h
              exact Except.noConfusion h
          | ok stv =>
              simp only [hst] at h
              cases hrec : bulkToggle targets oracle rest with
              | error e =>
                  simp only [hrec] at h
                  exact Except.noConfusion h
              | ok tl =>
                  simp only [hrec] at h
                  cases h
                  have htl := ih tl hrec
                  rw [List.filterMap_cons]
                  simp only [eligibleOutcome, hst]
                  cases hic : jget fs "iccid" with
                  | none => simp [htl]
                  | some v =>
                      by_cases hcond : truthy v = true ∧ stv ∈ targets
                      · simp [hcond, htl]
                      · simp [hcond, htl]
      | null => simp only [bulkToggle] at h; exact Except.noConfusion h
      | bool b => simp only [bulkToggle] at h; exact Except.noConfusion h
      | num n => simp only [bulkToggle] at h; exact Except.noConfusion h
      | str s => simp only [bulkToggle] at h; exact Except.noConfusion h
      | arr xs => simp only [bulkToggle] at h; exact Except.noConfusion h

/-- C9: on success, `activate_all_simcards` returns exactly one result
entry per fetched device that has a truthy identifier and whose
normalized state is `"disabled"` or `"inactive"` — the entry records the
call's success or its captured API error, in list order — and
`deactivate_all_simcards` does the same for states `"enabled"` or
`"active"`; devices outside the target set get no call and no entry,
and a failing call never aborts the batch (its error becomes an entry
like any other). -/
theorem bulk_operations_eligible (oracle : JVal → Except SimbaseError JVal)
    (sims : List JVal) :
    (∀ rs, activate_all_simcards sims oracle = .ok rs →
      rs = sims.filterMap (eligibleOutcome ["disabled", "inactive"] oracle)) ∧
    (∀ rs, deactivate_all_simcards sims oracle = .ok rs →
      rs = sims.filterMap (eligibleOutcome ["enabled", "active"] oracle)) :=
  ⟨fun rs h => bulkToggle_filterMap ["disabled", "inactive"] oracle sims rs h,
   fun rs h => bulkToggle_filterMap ["enabled", "active"] oracle sims rs h⟩

/-- Witness for C9: a two-device batch in which the first call fails —
the error is captured as a result entry and the second device is still
attempted; the deactivate run matches no device and returns no entries. -/
theorem bulk_operations_eligible_witness :
    (activate_all_simcards [simDisabled, simInactive] oracleW =
      .ok [[("iccid", .str "A"), ("success", .bool false), ("error", .str "boom")],
           [("iccid", .str "B"), ("success", .bool true), ("result", .null)]]) ∧
    ([[("iccid", .str "A"), ("success", .bool false), ("error", .str "boom")],
      [("iccid", .str "B"), ("success", .bool true), ("result", .null)]] =
        [simDisabled, simInactive].filterMap
          (eligibleOutcome ["disabled", "inactive"] oracleW)) ∧
    ([] : List JObj) =
      [simDisabled, simInactive].filterMap (eligibleOutcome ["enabled", "active"] oracleW) :=
  ⟨by decide,
   (bulk_operations_eligible oracleW [simDisabled, simInactive]).1
     [[("iccid", .str "A"), ("success", .bool false), ("error", .str "boom")],
      [("iccid", .str "B"), ("success", .bool true), ("result", .null)]] (by decide),
   (bulk_operations_eligible oracleW [simDisabled, simInactive]).2 [] (by decide)⟩

/-- Witness for C8: a concrete refresh with one device and one unmatched
usage record — the device mapping stays within the input device count
and the unmatched record is attached to no device record. -/
theorem usage_unmatched_dropped_witness :
    (async_update_data initCoordState (.ok [devActive]) (.ok [usageZ]) (.ok []) (.ok [])
      = .ok (stW8, snapW8)) ∧
    snapW8.simcards.length ≤ [devActive].length ∧
    (∃ sim0, ((.str "A" : JVal), sim0) ∈ [((.str "A" : JVal), devFieldsA)] ∧
      devFieldsA = addNetworkInfo sim0) :=
  ⟨by decide,
   (usage_unmatched_dropped initCoordState [devActive] (.ok [usageZ]) (.ok []) (.ok [])
     stW8 snapW8 (by decide)).1,
   (usage_unmatched_dropped initCoordState [devActive] (.ok [usageZ]) (.ok []) (.ok [])
     stW8 snapW8 (by decide)).2
     [((.str "A" : JVal), devFieldsA)] (by decide) (.str "A") devFieldsA
     (by decide) (by decide)⟩

/-- Witness for C4: the characterization evaluated on the
counterexample page, and the falsy-skip equation at the present-but-
empty `data` key. -/
theorem alias_selection_truthy_witness :
    (firstTruthyGet [("data", JVal.arr []), ("simcards", JVal.arr [.num 7])] containerAliases =
      ((containerAliases.filterMap (fun k =>
        (jget [("data", JVal.arr []), ("simcards", JVal.arr [.num 7])] k).bind
          (fun v => if truthy v then some v else none))).head?)) ∧
    (jget [("data", JVal.arr [])] "data" = some (.arr []) ∧
      truthy (.arr []) = false ∧
      firstTruthyGet [("data", JVal.arr [])] ("data" :: ["simcards", "items", "results"]) =
        firstTruthyGet [("data", JVal.arr [])] ["simcards", "items", "results"]) :=
  ⟨alias_selection_truthy.1 [("data", .arr []), ("simcards", .arr [.num 7])] containerAliases,
   by decide, by decide,
   alias_selection_truthy.2 [("data", .arr [])] "data" ["simcards", "items", "results"]
     (.arr []) (by decide) (by decide)⟩
